import Mathlib

/-!
# Shallow embedding of the validation engine

This file embeds `src/utils/validationUtils.ts` (the repository's validation
engine) into Lean 4 and proves properties of the embedding.

Modelling conventions:
* A JavaScript cell value is `JSValue`: a string, a number, or `null`.
  (A missing field is `Option.none`, i.e. JS `undefined`.)  Numbers are
  modelled as `Int`: every concrete value appearing in the engine's checks
  and in the claims is integral; fractional / exponent literals are outside
  the modelled subset and parse as failures.
* An entity row is an association list from field name to `JSValue`,
  mirroring a JS object (insertion order preserved, unique keys, and
  `alSet` mirrors JS property assignment: update in place or append).
* `JSON.parse` is modelled for the shapes the engine feeds it: flat JSON
  arrays of (escape-free) string literals and integer literals, plus
  top-level atoms for the free-form JSON check.  Nested structures are
  outside the modelled subset and are treated as parse failures.
* Code that can throw a `TypeError` that the source does *not* catch is
  embedded in `Except Unit`; every `try`/`catch` in the source is embedded
  by the corresponding total match on the parse result.
-/

inductive JSValue where
  | str : String → JSValue
  | num : Int → JSValue
  | null : JSValue
deriving DecidableEq, Repr

/-- Element of a parsed JSON array (`JSON.parse` of a `[...]` literal). -/
inductive JsonVal where
  | str : String → JsonVal
  | num : Int → JsonVal
deriving DecidableEq, Repr

/-- Element of a numeric slot/phase list: a JSON string element, a JSON or
`parseInt` number, or `NaN` (a failed `parseInt`). -/
inductive SlotElem where
  | str : String → SlotElem
  | int : Int → SlotElem
  | nan : SlotElem
deriving DecidableEq, Repr

/-- A phase counter value: JS `+=` turns it into a string when a string is
added (`0 + "3" === "03"`), so a counter is a number or a string. -/
inductive CtrVal where
  | num : Int → CtrVal
  | str : String → CtrVal
deriving DecidableEq, Repr

/-- First-match lookup in an association list (JS object / Map read). -/
def alGet {κ α : Type} [DecidableEq κ] : List (κ × α) → κ → Option α
  | [], _ => none
  | (k, v) :: rest, key => if k = key then some v else alGet rest key

/-- JS property assignment: replace in place if the key exists (keeping its
position), otherwise append at the end. -/
def alSet {κ α : Type} [DecidableEq κ] : List (κ × α) → κ → α → List (κ × α)
  | [], key, v => [(key, v)]
  | (k, w) :: rest, key, v =>
      if k = key then (key, v) :: rest else (k, w) :: alSet rest key v

/-- An entity row: JS object mapping field names to cell values. -/
abbrev Row := List (String × JSValue)

def Row.get (row : Row) (field : String) : Option JSValue :=
  alGet row field

def isWsChar (c : Char) : Bool :=
  c = ' ' ∨ c = '\t' ∨ c = '\n' ∨ c = '\r'

def skipWs (cs : List Char) : List Char :=
  cs.dropWhile isWsChar

/-- JS `String.prototype.trim`. -/
def jsTrim (s : String) : String :=
  String.mk ((skipWs ((skipWs s.data).reverse)).reverse)

/-- JS `value.trim().startsWith('[')`. -/
def trimStartsBracket (s : String) : Bool :=
  match skipWs s.data with
  | '[' :: _ => true
  | _ => false

/-- JS `s.split(',')`: split on every comma, `"" → [""]`. -/
def splitCommaAux : List Char → List Char → List String
  | [], acc => [String.mk acc.reverse]
  | ',' :: rest, acc => String.mk acc.reverse :: splitCommaAux rest []
  | c :: rest, acc => splitCommaAux rest (c :: acc)

def splitComma (s : String) : List String :=
  splitCommaAux s.data []

/-- JS `list.join(sep)`. -/
def joinSep (sep : String) : List String → String
  | [] => ""
  | [x] => x
  | x :: rest => x ++ sep ++ joinSep sep rest

def digitsToNat (ds : List Char) : Nat :=
  ds.foldl (fun a c => a * 10 + (c.toNat - 48)) 0

/-- JS `parseInt(t)` on an already-trimmed string: optional sign followed by
the longest digit prefix; no digits gives `NaN`. -/
def jsParseInt (t : String) : SlotElem :=
  let go : List Char → Bool → SlotElem := fun cs neg =>
    let ds := cs.takeWhile Char.isDigit
    if ds.isEmpty then SlotElem.nan
    else if neg then SlotElem.int (-(digitsToNat ds : Int))
    else SlotElem.int (digitsToNat ds : Int)
  match t.data with
  | '-' :: rest => go rest true
  | '+' :: rest => go rest false
  | cs => go cs false

/-- Numeric value of a string under JS `Number(...)` / `ToNumber`:
whitespace-trimmed, empty means `0`, otherwise the whole string must be an
(optionally signed) integer literal; `none` is `NaN`. -/
def toNumberStr (s : String) : Option Int :=
  let full : List Char → Bool → Option Int := fun cs neg =>
    if cs.isEmpty then none
    else if cs.all Char.isDigit then
      some (if neg then -(digitsToNat cs : Int) else (digitsToNat cs : Int))
    else none
  match skipWs ((skipWs s.data).reverse) with
  | [] => some 0
  | '-' :: rest => full rest.reverse true
  | '+' :: rest => full rest.reverse false
  | cs => full cs.reverse false

/-- JS `Number(value)` for a present value; `none` is `NaN`. -/
def toNumber : JSValue → Option Int
  | JSValue.num n => some n
  | JSValue.null => some 0
  | JSValue.str s => toNumberStr s

/-- JS truthiness of a present value. -/
def truthyV : JSValue → Bool
  | JSValue.num n => n ≠ 0
  | JSValue.str s => s ≠ ""
  | JSValue.null => false

/-- JS truthiness of a possibly-undefined value (`undefined` is falsy). -/
def truthyO : Option JSValue → Bool
  | none => false
  | some v => truthyV v

def truthyJ : JsonVal → Bool
  | JsonVal.num n => n ≠ 0
  | JsonVal.str s => s ≠ ""

/-- JS string interpolation of a present value. -/
def jsToString : JSValue → String
  | JSValue.str s => s
  | JSValue.num n => toString n
  | JSValue.null => "null"

/-- JS string interpolation of a possibly-undefined value. -/
def jsToStringOpt : Option JSValue → String
  | none => "undefined"
  | some v => jsToString v

def jvToString : JsonVal → String
  | JsonVal.str s => s
  | JsonVal.num n => toString n

/-! ## JSON subset parser (flat arrays of escape-free strings and integers) -/

/-- Scan a JSON string literal body up to the closing quote; escape
sequences are outside the modelled subset. -/
def takeStrChars : List Char → Option (List Char × List Char)
  | [] => none
  | c :: cs =>
      if c = '"' then some ([], cs)
      else if c = '\\' then none
      else match takeStrChars cs with
        | some (body, rest) => some (c :: body, rest)
        | none => none

/-- Parse a JSON integer literal (canonical form: no leading zeros). -/
def parseNumTok (cs : List Char) : Option (Int × List Char) :=
  let digits : List Char → Bool → Option (Int × List Char) := fun cs neg =>
    let ds := cs.takeWhile Char.isDigit
    if ds.isEmpty then none
    else if ds.length > 1 ∧ ds.headI = '0' then none
    else
      let n : Int := (digitsToNat ds : Int)
      some (if neg then -n else n, cs.drop ds.length)
  match cs with
  | '-' :: rest => digits rest true
  | _ => digits cs false

def parseElem (cs : List Char) : Option (JsonVal × List Char) :=
  match cs with
  | '"' :: rest =>
      match takeStrChars rest with
      | some (body, rest2) => some (JsonVal.str (String.mk body), rest2)
      | none => none
  | _ =>
      match parseNumTok cs with
      | some (n, rest) => some (JsonVal.num n, rest)
      | none => none

/-- Parse the comma-separated items of an array body up to `]`. -/
def parseItems : Nat → List Char → Option (List JsonVal × List Char)
  | 0, _ => none
  | fuel + 1, cs =>
      match parseElem (skipWs cs) with
      | none => none
      | some (v, rest) =>
          match skipWs rest with
          | ',' :: rest2 =>
              match parseItems fuel rest2 with
              | some (vs, tail) => some (v :: vs, tail)
              | none => none
          | ']' :: rest2 => some ([v], rest2)
          | _ => none

/-- `JSON.parse` of a flat-array literal; anything else is a parse error. -/
def jsonParseArr (s : String) : Except Unit (List JsonVal) :=
  match skipWs s.data with
  | '[' :: rest =>
      match skipWs rest with
      | ']' :: tail => if (skipWs tail).isEmpty then Except.ok [] else Except.error ()
      | body =>
          match parseItems (body.length + 1) body with
          | some (vs, tail) =>
              if (skipWs tail).isEmpty then Except.ok vs else Except.error ()
          | none => Except.error ()
  | _ => Except.error ()

def litMatch (lit : List Char) (cs : List Char) : Option (List Char) :=
  if cs.take lit.length = lit then some (cs.drop lit.length) else none

/-- Does `JSON.parse` succeed on the string?  Modelled subset: flat arrays,
integer literals, escape-free string literals, `true`, `false`, `null`. -/
def jsonParseOkStr (s : String) : Bool :=
  match jsonParseArr s with
  | Except.ok _ => true
  | Except.error _ =>
      let cs := skipWs s.data
      match parseElem cs with
      | some (_, rest) => (skipWs rest).isEmpty
      | none =>
          match litMatch "true".data cs with
          | some rest => (skipWs rest).isEmpty
          | none =>
              match litMatch "false".data cs with
              | some rest => (skipWs rest).isEmpty
              | none =>
                  match litMatch "null".data cs with
                  | some rest => (skipWs rest).isEmpty
                  | none => false

/-- Does `JSON.parse(value)` succeed?  A number coerces to its decimal
string, which always parses. -/
def jsonParseOk : JSValue → Bool
  | JSValue.num _ => true
  | JSValue.null => true
  | JSValue.str s => jsonParseOkStr s

/-! ## Validation result and shared error-writing helpers -/

inductive Entity where
  | clients
  | workers
  | tasks
deriving DecidableEq, Repr

def entityName : Entity → String
  | Entity.clients => "clients"
  | Entity.workers => "workers"
  | Entity.tasks => "tasks"

/-- Field-error map of one row: field name to message. -/
abbrev FieldErrs := List (String × String)

/-- Error map of one entity: row key to its field errors. -/
abbrev EntityErrs := List (String × FieldErrs)

structure ErrorsMap where
  clients : EntityErrs
  workers : EntityErrs
  tasks : EntityErrs
deriving DecidableEq, Repr

def ErrorsMap.getEnt (e : ErrorsMap) : Entity → EntityErrs
  | Entity.clients => e.clients
  | Entity.workers => e.workers
  | Entity.tasks => e.tasks

def ErrorsMap.setEnt (e : ErrorsMap) : Entity → EntityErrs → ErrorsMap
  | Entity.clients, m => { e with clients := m }
  | Entity.workers, m => { e with workers := m }
  | Entity.tasks, m => { e with tasks := m }

structure ValidationResult where
  errors : ErrorsMap
  summary : List String
  suggestions : List String
deriving DecidableEq, Repr

def emptyResult : ValidationResult :=
  { errors := { clients := [], workers := [], tasks := [] }, summary := [], suggestions := [] }

/-- `errors[entity][key] = errors[entity][key] || {}; errors[entity][key][field] = msg`. -/
def setFieldErr (e : EntityErrs) (key field msg : String) : EntityErrs :=
  alSet e key (alSet ((alGet e key).getD []) field msg)

def getFieldErr (e : ErrorsMap) (ent : Entity) (key field : String) : Option String :=
  (alGet (e.getEnt ent) key).bind (fun fm => alGet fm field)

def writeErr (st : ValidationResult) (ent : Entity) (key field msg : String) : ValidationResult :=
  { st with errors := st.errors.setEnt ent (setFieldErr (st.errors.getEnt ent) key field msg) }

def pushSummary (st : ValidationResult) (line : String) : ValidationResult :=
  { st with summary := st.summary ++ [line] }

def pushSuggestion (st : ValidationResult) (line : String) : ValidationResult :=
  { st with suggestions := st.suggestions ++ [line] }

/-- `row.id || idx`: error-reporting key of a row (JS object keys are
strings, so both branches stringify). -/
def rowKey (row : Row) (idx : Nat) : String :=
  match Row.get row "id" with
  | some v => if truthyV v then jsToString v else toString idx
  | none => toString idx

def requiredColumns : Entity → List String
  | Entity.clients =>
      ["ClientID", "ClientName", "PriorityLevel", "RequestedTaskIDs", "GroupTag", "AttributesJSON"]
  | Entity.workers =>
      ["WorkerID", "WorkerName", "Skills", "AvailableSlots", "MaxLoadPerPhase", "WorkerGroup",
        "QualificationLevel"]
  | Entity.tasks =>
      ["TaskID", "TaskName", "Category", "Duration", "RequiredSkills", "PreferredPhases",
        "MaxConcurrent"]

/-! ## Shared list-field parsing

Both parsers share the source's shape: JSON array when the trimmed string
value starts with `[`, else comma split.  `Except.error` stands for a
thrown exception (invalid JSON, or a `.split` call on a non-string),
which each call site's `try` handles. -/

/-- The string-list parse expression.  `trimEls` tells whether the call
site maps `.trim()` over the comma-split elements. -/
def parseStrList (trimEls : Bool) : Option JSValue → Except Unit (List JsonVal)
  | some (JSValue.str s) =>
      if trimStartsBracket s then jsonParseArr s
      else Except.ok ((splitComma s).map (fun t => JsonVal.str (if trimEls then jsTrim t else t)))
  | _ => Except.error ()

def jsonToElem : JsonVal → SlotElem
  | JsonVal.str s => SlotElem.str s
  | JsonVal.num n => SlotElem.int n

/-- The numeric-list parse expression: JSON array, else comma split with
`parseInt(s.trim())` per element. -/
def parseNumList : Option JSValue → Except Unit (List SlotElem)
  | some (JSValue.str s) =>
      if trimStartsBracket s then
        match jsonParseArr s with
        | Except.ok l => Except.ok (l.map jsonToElem)
        | Except.error e => Except.error e
      else Except.ok ((splitComma s).map (fun t => jsParseInt (jsTrim t)))
  | _ => Except.error ()

/-- `value || 1` at the three defaulting sites (`MaxLoadPerPhase`,
`MaxConcurrent`, `Duration`): the stored value when truthy, else the
number 1 — so `0`, `''`, `null` and absence all default. -/
def jsOrOne (v : Option JSValue) : JSValue :=
  match v with
  | some x => if truthyV x then x else JSValue.num 1
  | none => JSValue.num 1

/-- JS `length < v`: the right operand is coerced with `ToNumber`; a `NaN`
comparison is false. -/
def jsLtLen (len : Nat) (v : JSValue) : Bool :=
  match toNumber v with
  | some b => decide ((len : Int) < b)
  | none => false

/-! ## The individual checkers -/

def checkMissingColumns (entity : Entity) (rows : List Row) (st : ValidationResult) :
    ValidationResult :=
  match rows with
  | [] => st
  | first :: _ =>
      let actual := first.map Prod.fst
      let missing := (requiredColumns entity).filter (fun col => ¬ actual.contains col)
      if missing.isEmpty then st
      else
        let st := pushSummary st
          (entityName entity ++ ": Missing required columns: " ++ joinSep ", " missing)
        rows.enum.foldl (fun st p =>
          missing.foldl (fun st col =>
            writeErr st entity (rowKey p.2 p.1) col "Required column missing") st) st

def checkDuplicateIds (entity : Entity) (rows : List Row) (idField : String)
    (st : ValidationResult) : ValidationResult :=
  let ids : List (JSValue × List (Nat × Row)) :=
    rows.enum.foldl (fun m p =>
      match Row.get p.2 idField with
      | some v => if truthyV v then alSet m v (((alGet m v).getD []) ++ [p]) else m
      | none => m) []
  ids.foldl (fun st g =>
    if g.2.length > 1 then
      let st := pushSummary st
        (entityName entity ++ ": Duplicate " ++ idField ++ " '" ++ jsToString g.1 ++
          "' found in rows " ++ joinSep ", " (g.2.map (fun p => toString (p.1 + 1))))
      g.2.foldl (fun st p =>
        writeErr st entity (rowKey p.2 p.1) idField
          ("Duplicate " ++ idField ++ ": " ++ jsToString g.1)) st
    else st) st

/-- `/^\d+$/.test(item)` after JS string coercion of the element. -/
def digitsOnly : JsonVal → Bool
  | JsonVal.str s => ¬ s.isEmpty ∧ s.data.all Char.isDigit
  | JsonVal.num n => decide (0 ≤ n)

def malformedStep (entity : Entity) (field : String) (numeric : Bool) (st : ValidationResult)
    (p : Nat × Row) : ValidationResult :=
  let value := Row.get p.2 field
  if ¬ truthyO value then st
  else
    match parseStrList true value with
    | Except.error _ =>
        let st := writeErr st entity (rowKey p.2 p.1) field "Invalid list format"
        pushSummary st
          (entityName entity ++ ": Row " ++ toString (p.1 + 1) ++ " has malformed list in " ++ field)
    | Except.ok list =>
        if numeric then
          let invalidItems := list.filter (fun item => ¬ digitsOnly item)
          if ¬ invalidItems.isEmpty then
            let st := writeErr st entity (rowKey p.2 p.1) field
              ("Non-numeric values: " ++ joinSep ", " (invalidItems.map jvToString))
            pushSummary st
              (entityName entity ++ ": Row " ++ toString (p.1 + 1) ++
                " has non-numeric values in " ++ field ++ ": " ++
                joinSep ", " (invalidItems.map jvToString))
          else st
        else st

def checkMalformedLists (entity : Entity) (rows : List Row) (field : String) (numeric : Bool)
    (st : ValidationResult) : ValidationResult :=
  rows.enum.foldl (malformedStep entity field numeric) st

def rangeMsg (mn mx : Int) : String :=
  "Value must be between " ++ toString mn ++ " and " ++ toString mx

def rangeLine (entity : Entity) (idx : Nat) (field : String) (v : JSValue) (mn mx : Int) :
    String :=
  entityName entity ++ ": Row " ++ toString (idx + 1) ++ " " ++ field ++ " value " ++
    jsToString v ++ " is out of range [" ++ toString mn ++ ", " ++ toString mx ++ "]"

def rangeStep (entity : Entity) (field : String) (mn mx : Int) (st : ValidationResult)
    (p : Nat × Row) : ValidationResult :=
  match Row.get p.2 field with
  | none => st
  | some v =>
      if v = JSValue.null ∨ v = JSValue.str "" then st
      else
        let flagged : Bool :=
          match toNumber v with
          | none => true
          | some n => decide (n < mn) || decide (n > mx)
        if flagged then
          pushSummary (writeErr st entity (rowKey p.2 p.1) field (rangeMsg mn mx))
            (rangeLine entity p.1 field v mn mx)
        else st

def checkOutOfRange (entity : Entity) (rows : List Row) (field : String) (mn mx : Int)
    (st : ValidationResult) : ValidationResult :=
  rows.enum.foldl (rangeStep entity field mn mx) st

def jsonFormatStep (entity : Entity) (field : String) (st : ValidationResult) (p : Nat × Row) :
    ValidationResult :=
  match Row.get p.2 field with
  | none => st
  | some v =>
      if ¬ truthyV v then st
      else if jsonParseOk v then st
      else
        let st := writeErr st entity (rowKey p.2 p.1) field "Invalid JSON format"
        pushSummary st
          (entityName entity ++ ": Row " ++ toString (p.1 + 1) ++ " has invalid JSON in " ++ field)

def checkJSONFormat (entity : Entity) (rows : List Row) (field : String) (st : ValidationResult) :
    ValidationResult :=
  rows.enum.foldl (jsonFormatStep entity field) st

def overloadFlagged (st : ValidationResult) (idx : Nat) (w : Row) (len : Nat) : ValidationResult :=
  let st := writeErr st Entity.workers (rowKey w idx) "MaxLoadPerPhase"
    ("Max load (" ++ jsToStringOpt (Row.get w "MaxLoadPerPhase") ++
      ") exceeds available slots (" ++ toString len ++ ")")
  pushSummary st ("workers: Row " ++ toString (idx + 1) ++ " worker is overloaded")

def overloadStep (st : ValidationResult) (p : Nat × Row) : ValidationResult :=
  match parseNumList (Row.get p.2 "AvailableSlots") with
  | Except.error _ => st
  | Except.ok availableSlots =>
      if jsLtLen availableSlots.length (jsOrOne (Row.get p.2 "MaxLoadPerPhase")) then
        overloadFlagged st p.1 p.2 availableSlots.length
      else st

def checkOverloadedWorkers (workers : List Row) (st : ValidationResult) : ValidationResult :=
  workers.enum.foldl overloadStep st

def workerQualifies (skills : List JsonVal) (w : Row) : Bool :=
  match parseStrList true (Row.get w "Skills") with
  | Except.error _ => false
  | Except.ok workerSkills => skills.any (fun skill => workerSkills.contains skill)

def concFlagged (st : ValidationResult) (idx : Nat) (t : Row) (qlen : Nat) : ValidationResult :=
  let st := writeErr st Entity.tasks (rowKey t idx) "MaxConcurrent"
    ("Max concurrent (" ++ jsToStringOpt (Row.get t "MaxConcurrent") ++
      ") exceeds qualified workers (" ++ toString qlen ++ ")")
  pushSummary st ("tasks: Row " ++ toString (idx + 1) ++ " max concurrency not feasible")

def concStep (workers : List Row) (st : ValidationResult) (p : Nat × Row) : ValidationResult :=
  let requiredSkills := Row.get p.2 "RequiredSkills"
  if ¬ truthyO requiredSkills then st
  else
    match parseStrList true requiredSkills with
    | Except.error _ => st
    | Except.ok skills =>
        let qualified := workers.filter (workerQualifies skills)
        if jsLtLen qualified.length (jsOrOne (Row.get p.2 "MaxConcurrent")) then
          concFlagged st p.1 p.2 qualified.length
        else st

def checkMaxConcurrencyFeasibility (workers tasks : List Row) (st : ValidationResult) :
    ValidationResult :=
  tasks.enum.foldl (concStep workers) st

/-! ## Rule graph checker (`checkCircularCoRuns`) -/

/-- A rule object as the engine consumes it: only the `type` tag and, for
co-run rules, the `tasks` list are read.  A missing `tasks` is `none`
(reading it throws when the cycle checker iterates it). -/
structure Rule where
  type : Option JSValue
  tasks : Option (List JSValue)
deriving DecidableEq, Repr

abbrev CoRunGraph := List (String × List JSValue)

/-- One iteration of the outer `rule.tasks.forEach(task => ...)` body:
ensure the adjacency entry exists, then push every distinct, not yet
recorded member of the same group. -/
def addNeighbors (g : CoRunGraph) (tasks : List JSValue) (task : JSValue) : CoRunGraph :=
  let key := jsToString task
  let g := if (alGet g key).isNone then alSet g key [] else g
  tasks.foldl (fun g other =>
    if task ≠ other ∧ ¬ ((alGet g key).getD []).contains other then
      alSet g key (((alGet g key).getD []) ++ [other])
    else g) g

def buildGraph (ruleTasks : List (List JSValue)) : CoRunGraph :=
  ruleTasks.foldl (fun g ts => ts.foldl (fun g t => addNeighbors g ts t) g) []

/-- Extract `rule.tasks` from each co-run rule; a rule without a `tasks`
list makes `rule.tasks.forEach` throw, which nothing catches. -/
def ruleTasksList : List Rule → Except Unit (List (List JSValue))
  | [] => Except.ok []
  | r :: rest =>
      match r.tasks with
      | none => Except.error ()
      | some ts =>
          match ruleTasksList rest with
          | Except.ok l => Except.ok (ts :: l)
          | Except.error e => Except.error e

/-- The `for (const neighbor of graph[task] || [])` loop: run `f` on each
neighbor in turn, threading the visited/recursion sets, and stop at the
first cycle found (the early `return true`). -/
def dfsManyF (f : JSValue → List JSValue → List JSValue → Bool × List JSValue × List JSValue) :
    List JSValue → List JSValue → List JSValue → Bool × List JSValue × List JSValue
  | [], vis, stk => (false, vis, stk)
  | n :: rest, vis, stk =>
      match f n vis stk with
      | (true, v, r) => (true, v, r)
      | (false, v, r) => dfsManyF f rest v r

/-- `hasCycle(task)`: depth-first search with persistent `visited` and a
recursion stack; fuel bounds the recursion depth (chosen larger than the
number of values in the graph, so it never runs out). -/
def dfsVisit (g : CoRunGraph) : Nat → JSValue → List JSValue → List JSValue →
    Bool × List JSValue × List JSValue
  | 0, _, vis, stk => (false, vis, stk)
  | fuel + 1, task, vis, stk =>
      if stk.contains task then (true, vis, stk)
      else if vis.contains task then (false, vis, stk)
      else
        match dfsManyF (fun n v r => dfsVisit g fuel n v r)
            ((alGet g (jsToString task)).getD []) (vis ++ [task]) (stk ++ [task]) with
        | (true, v, r) => (true, v, r)
        | (false, v, r) => (false, v, r.erase task)

/-- Recursion-depth bound: more than the number of values in the graph. -/
def coRunFuel (g : CoRunGraph) : Nat :=
  1 + g.length + (g.map (fun e => e.2.length)).sum

/-- `for (const task of Object.keys(graph))`, returning the first key whose
depth-first search finds a back edge. -/
def scanForCycle (g : CoRunGraph) : List String → List JSValue → List JSValue → Option String
  | [], _, _ => none
  | k :: ks, vis, stk =>
      if vis.contains (JSValue.str k) then scanForCycle g ks vis stk
      else
        match dfsVisit g (coRunFuel g) (JSValue.str k) vis stk with
        | (true, _, _) => some k
        | (false, vis', stk') => scanForCycle g ks vis' stk'

def checkCircularCoRuns (rules : List Rule) (st : ValidationResult) :
    Except Unit ValidationResult :=
  let coRunRules := rules.filter (fun r => r.type = some (JSValue.str "coRun"))
  match ruleTasksList coRunRules with
  | Except.error e => Except.error e
  | Except.ok ruleTasks =>
      let graph := buildGraph ruleTasks
      match scanForCycle graph (graph.map Prod.fst) [] [] with
      | some task =>
          let st := pushSummary st ("Circular co-run dependency detected involving task " ++ task)
          Except.ok (pushSuggestion st "Review co-run rules to eliminate circular dependencies")
      | none => Except.ok st

/-! ## Phase saturation checker (`checkPhaseSlotSaturation`) -/

structure PhaseSlot where
  total : CtrVal
  used : CtrVal
deriving DecidableEq, Repr

/-- The object key a phase value indexes `phaseSlots` with. -/
def elemKey : SlotElem → String
  | SlotElem.int n => toString n
  | SlotElem.nan => "NaN"
  | SlotElem.str s => s

/-- JS `+` on a counter and a cell value (string operands concatenate). -/
def jsAdd : CtrVal → JSValue → CtrVal
  | CtrVal.num a, JSValue.num b => CtrVal.num (a + b)
  | CtrVal.num a, JSValue.str s => CtrVal.str (toString a ++ s)
  | CtrVal.num a, JSValue.null => CtrVal.num a
  | CtrVal.str s, JSValue.num b => CtrVal.str (s ++ toString b)
  | CtrVal.str s, JSValue.str t => CtrVal.str (s ++ t)
  | CtrVal.str s, JSValue.null => CtrVal.str (s ++ "null")

def toNumberCtr : CtrVal → Option Int
  | CtrVal.num n => some n
  | CtrVal.str s => toNumberStr s

/-- JS `used > total`: lexicographic when both operands are strings, else
numeric with NaN comparisons false. -/
def ctrGt (a b : CtrVal) : Bool :=
  match a, b with
  | CtrVal.str x, CtrVal.str y => decide (y < x)
  | _, _ =>
      match toNumberCtr a, toNumberCtr b with
      | some x, some y => decide (y < x)
      | _, _ => false

def ctrToString : CtrVal → String
  | CtrVal.num n => toString n
  | CtrVal.str s => s

/-- Worker pass, one phase value: seed the entry if absent, then
`total += worker.MaxLoadPerPhase || 1`. -/
def workerPhaseStep (mlp : Option JSValue) (m : List (String × PhaseSlot)) (e : SlotElem) :
    List (String × PhaseSlot) :=
  let key := elemKey e
  let slot := (alGet m key).getD { total := CtrVal.num 0, used := CtrVal.num 0 }
  alSet m key { slot with total := jsAdd slot.total (jsOrOne mlp) }

/-- Task pass, one phase value: only an already seeded phase is updated
(`if (phaseSlots[phase])`), with `used += task.Duration || 1`. -/
def taskPhaseStep (dur : Option JSValue) (m : List (String × PhaseSlot)) (e : SlotElem) :
    List (String × PhaseSlot) :=
  match alGet m (elemKey e) with
  | none => m
  | some slot => alSet m (elemKey e) { slot with used := jsAdd slot.used (jsOrOne dur) }

def buildPhaseSlots (workers tasks : List Row) : List (String × PhaseSlot) :=
  let m := workers.foldl (fun m w =>
    match parseNumList (Row.get w "AvailableSlots") with
    | Except.error _ => m
    | Except.ok slots => slots.foldl (workerPhaseStep (Row.get w "MaxLoadPerPhase")) m) []
  tasks.foldl (fun m t =>
    match parseNumList (Row.get t "PreferredPhases") with
    | Except.error _ => m
    | Except.ok phases => phases.foldl (taskPhaseStep (Row.get t "Duration")) m) m

/-- JS array-index property keys (canonical decimal below 2^32 - 1). -/
def isArrayIndexKey (s : String) : Bool :=
  (s = "0" ∨ (¬ s.isEmpty ∧ s.data.all Char.isDigit ∧ s.data.headI ≠ '0')) ∧
    digitsToNat s.data < 4294967295

def insertSortedKey (x : String × PhaseSlot) :
    List (String × PhaseSlot) → List (String × PhaseSlot)
  | [] => [x]
  | y :: rest =>
      if digitsToNat x.1.data ≤ digitsToNat y.1.data then x :: y :: rest
      else y :: insertSortedKey x rest

def sortIndexKeys : List (String × PhaseSlot) → List (String × PhaseSlot)
  | [] => []
  | x :: rest => insertSortedKey x (sortIndexKeys rest)

/-- `Object.entries` enumeration order: array-index keys ascending first,
then the remaining keys in insertion order. -/
def objectEntries (m : List (String × PhaseSlot)) : List (String × PhaseSlot) :=
  sortIndexKeys (m.filter (fun e => isArrayIndexKey e.1)) ++
    m.filter (fun e => ¬ isArrayIndexKey e.1)

def oversatLine (phase : String) (slot : PhaseSlot) : String :=
  "Phase " ++ phase ++ " is oversaturated: " ++ ctrToString slot.used ++ " slots needed, " ++
    ctrToString slot.total ++ " available"

def oversatSuggestion (phase : String) : String :=
  "Consider reducing task durations or adding more workers for phase " ++ phase

def reportPhases (st : ValidationResult) (entries : List (String × PhaseSlot)) :
    ValidationResult :=
  entries.foldl (fun st e =>
    if ctrGt e.2.used e.2.total then
      pushSuggestion (pushSummary st (oversatLine e.1 e.2)) (oversatSuggestion e.1)
    else st) st

def checkPhaseSlotSaturation (workers tasks : List Row) (st : ValidationResult) :
    ValidationResult :=
  reportPhases st (objectEntries (buildPhaseSlots workers tasks))

/-! ## Cross-entity checks and the engine entry point -/

/-- Left fold that propagates a thrown exception. -/
def foldlE {α : Type} (f : ValidationResult → α → Except Unit ValidationResult) :
    List α → ValidationResult → Except Unit ValidationResult
  | [], st => Except.ok st
  | a :: rest, st =>
      match f st a with
      | Except.error e => Except.error e
      | Except.ok st' => foldlE f rest st'

def taskIdsOf (tasks : List Row) : List (Option JSValue) :=
  tasks.map (fun t => Row.get t "TaskID")

/-- `taskIds.has(s)` for the trimmed string (Set equality never matches a
non-string `TaskID`). -/
def taskIdsHas (tids : List (Option JSValue)) (s : String) : Bool :=
  tids.contains (some (JSValue.str s))

def refMsg (taskId : String) : String := "Unknown task ID: " ++ taskId

def refLine (idx : Nat) (taskId : String) : String :=
  "clients: Row " ++ toString (idx + 1) ++ " requests unknown task '" ++ taskId ++ "'"

/-- Body of `taskList.forEach(taskId => ...)`: a truthy numeric element
throws at `taskId.trim()`. -/
def clientRefItem (tids : List (Option JSValue)) (key : String) (idx : Nat)
    (st : ValidationResult) (taskId : JsonVal) : Except Unit ValidationResult :=
  if truthyJ taskId then
    match taskId with
    | JsonVal.num _ => Except.error ()
    | JsonVal.str s =>
        if ¬ taskIdsHas tids (jsTrim s) then
          Except.ok (pushSummary (writeErr st Entity.clients key "RequestedTaskIDs" (refMsg s))
            (refLine idx s))
        else Except.ok st
  else Except.ok st

/-- Per-client body of the task-reference cross check; its `catch` block is
empty, so a parse failure leaves the (empty) list in place. -/
def clientRefRow (tids : List (Option JSValue)) (st : ValidationResult) (p : Nat × Row) :
    Except Unit ValidationResult :=
  let requestedTasks := Row.get p.2 "RequestedTaskIDs"
  if truthyO requestedTasks then
    let taskList :=
      match parseStrList false requestedTasks with
      | Except.ok l => l
      | Except.error _ => []
    foldlE (clientRefItem tids (rowKey p.2 p.1) p.1) taskList st
  else Except.ok st

def crossRefTaskIds (tids : List (Option JSValue)) (clients : List Row)
    (st : ValidationResult) : Except Unit ValidationResult :=
  foldlE (clientRefRow tids) clients.enum st

/-- One worker's contribution to the skill pool (the `flatMap` body):
falsy or unparsable `Skills` contributes nothing. -/
def workerSkillsRaw (w : Row) : List JsonVal :=
  let s := Row.get w "Skills"
  if ¬ truthyO s then []
  else
    match parseStrList false s with
    | Except.ok l => l
    | Except.error _ => []

def trimSkill : JsonVal → Except Unit String
  | JsonVal.str s => Except.ok (jsTrim s)
  | JsonVal.num _ => Except.error ()

/-- The `.map(skill => skill.trim())` over the flattened pool: this map is
outside every `try`, so a numeric element throws. -/
def mapTrimSkills : List JsonVal → Except Unit (List String)
  | [] => Except.ok []
  | j :: rest =>
      match trimSkill j with
      | Except.error e => Except.error e
      | Except.ok s =>
          match mapTrimSkills rest with
          | Except.error e => Except.error e
          | Except.ok l => Except.ok (s :: l)

def buildAllWorkerSkills (workers : List Row) : Except Unit (List String) :=
  mapTrimSkills (workers.foldl (fun acc w => acc ++ workerSkillsRaw w) [])

def covLine (idx : Nat) (skill : String) : String :=
  "tasks: Row " ++ toString (idx + 1) ++ " requires skill '" ++ skill ++
    "' not found in any worker"

/-- Body of `skills.forEach(skill => ...)`: the field error accumulates by
string concatenation, one clause per uncovered skill. -/
def covItem (allSkills : List String) (key : String) (idx : Nat) (st : ValidationResult)
    (skill : JsonVal) : Except Unit ValidationResult :=
  if truthyJ skill then
    match skill with
    | JsonVal.num _ => Except.error ()
    | JsonVal.str s =>
        if ¬ allSkills.contains (jsTrim s) then
          let cur := (getFieldErr st.errors Entity.tasks key "RequiredSkills").getD ""
          Except.ok (pushSummary
            (writeErr st Entity.tasks key "RequiredSkills" (cur ++ " No worker with skill: " ++ s))
            (covLine idx s))
        else Except.ok st
  else Except.ok st

def covRow (allSkills : List String) (st : ValidationResult) (p : Nat × Row) :
    Except Unit ValidationResult :=
  let reqSkills := Row.get p.2 "RequiredSkills"
  if truthyO reqSkills then
    let skills :=
      match parseStrList false reqSkills with
      | Except.ok l => l
      | Except.error _ => []
    foldlE (covItem allSkills (rowKey p.2 p.1) p.1) skills st
  else Except.ok st

def skillCoverage (allSkills : List String) (tasks : List Row) (st : ValidationResult) :
    Except Unit ValidationResult :=
  foldlE (covRow allSkills) tasks.enum st

structure ValidateAllDataArgs where
  clients : List Row
  workers : List Row
  tasks : List Row
  rules : List Rule
deriving DecidableEq, Repr

/-- The "Core validations" block of `validateAllData`: the per-entity
checks, in the source's order (all total: every parse failure here is
caught or skipped). -/
def totalChecks (a : ValidateAllDataArgs) (st : ValidationResult) : ValidationResult :=
  let st := checkMissingColumns Entity.clients a.clients st
  let st := checkDuplicateIds Entity.clients a.clients "ClientID" st
  let st := checkOutOfRange Entity.clients a.clients "PriorityLevel" 1 5 st
  let st := checkMalformedLists Entity.clients a.clients "RequestedTaskIDs" false st
  let st := checkJSONFormat Entity.clients a.clients "AttributesJSON" st
  let st := checkMissingColumns Entity.workers a.workers st
  let st := checkDuplicateIds Entity.workers a.workers "WorkerID" st
  let st := checkMalformedLists Entity.workers a.workers "Skills" false st
  let st := checkMalformedLists Entity.workers a.workers "AvailableSlots" true st
  let st := checkOutOfRange Entity.workers a.workers "MaxLoadPerPhase" 1 10 st
  let st := checkOverloadedWorkers a.workers st
  let st := checkMissingColumns Entity.tasks a.tasks st
  let st := checkDuplicateIds Entity.tasks a.tasks "TaskID" st
  let st := checkMalformedLists Entity.tasks a.tasks "RequiredSkills" false st
  let st := checkMalformedLists Entity.tasks a.tasks "PreferredPhases" true st
  let st := checkOutOfRange Entity.tasks a.tasks "Duration" 1 100 st
  let st := checkOutOfRange Entity.tasks a.tasks "MaxConcurrent" 1 10 st
  checkMaxConcurrencyFeasibility a.workers a.tasks st

/-- The engine entry point, in the source's check order.  `Except.error`
is an uncaught exception escaping `validateAllData`. -/
def validateAllData (a : ValidateAllDataArgs) : Except Unit ValidationResult :=
  match crossRefTaskIds (taskIdsOf a.tasks) a.clients (totalChecks a emptyResult) with
  | Except.error e => Except.error e
  | Except.ok st =>
      match buildAllWorkerSkills a.workers with
      | Except.error e => Except.error e
      | Except.ok allSkills =>
          match skillCoverage allSkills a.tasks st with
          | Except.error e => Except.error e
          | Except.ok st =>
              match checkCircularCoRuns a.rules st with
              | Except.error e => Except.error e
              | Except.ok st => Except.ok (checkPhaseSlotSaturation a.workers a.tasks st)

/-! ## Concrete inputs used by the claims, and statement helpers -/

def coRunRule (ts : List String) : Rule :=
  { type := some (JSValue.str "coRun"), tasks := some (ts.map JSValue.str) }

/-- The three co-run rules `(T1,T2)`, `(T2,T3)`, `(T3,T1)`. -/
def cycleRules3 : List Rule :=
  [coRunRule ["T1", "T2"], coRunRule ["T2", "T3"], coRunRule ["T3", "T1"]]

/-- The two disjoint co-run rules `(T1,T2)` and `(T3,T4)`. -/
def disjointRules2 : List Rule :=
  [coRunRule ["T1", "T2"], coRunRule ["T3", "T4"]]

/-- A task demanding phase 1 (duration 5) when no worker offers it. -/
def demandOnlyTask : Row :=
  [("PreferredPhases", JSValue.str "[1]"), ("Duration", JSValue.num 5)]

/-- A worker contributing capacity 5 to phase 1. -/
def satWorker : Row :=
  [("AvailableSlots", JSValue.str "[1]"), ("MaxLoadPerPhase", JSValue.num 5)]

/-- A task contributing demand 7 to phase 1. -/
def satTask : Row :=
  [("PreferredPhases", JSValue.str "[1]"), ("Duration", JSValue.num 7)]

/-- A client requesting the two unknown task IDs `X` and `Y`. -/
def unknownTasksClient : Row :=
  [("RequestedTaskIDs", JSValue.str "X,Y")]

/-- A worker whose `Skills` cell is a JSON array of numbers. -/
def numericSkillsWorker : Row :=
  [("Skills", JSValue.str "[1,2]")]

/-- Engine arguments that make `validateAllData` throw: the skill-pool
`.map(skill => skill.trim())` runs outside every `try`. -/
def throwArgs : ValidateAllDataArgs :=
  { clients := [], workers := [numericSkillsWorker], tasks := [], rules := [] }

/-- A schema-complete client row whose only problem is `PriorityLevel = 0`. -/
def badPriorityClient : Row :=
  [("ClientID", JSValue.str "C1"), ("ClientName", JSValue.str "A"),
    ("PriorityLevel", JSValue.num 0), ("RequestedTaskIDs", JSValue.str ""),
    ("GroupTag", JSValue.str "g"), ("AttributesJSON", JSValue.str "")]

def sampleArgs : ValidateAllDataArgs :=
  { clients := [badPriorityClient], workers := [], tasks := [], rules := [] }

/-- The run of the engine on `sampleArgs` (it does not throw). -/
def sampleRun : ValidationResult :=
  match validateAllData sampleArgs with
  | Except.ok r => r
  | Except.error _ => emptyResult

/-- Worker with two available slots and `MaxLoadPerPhase = 3` (flagged). -/
def overWorker3 : Row :=
  [("AvailableSlots", JSValue.str "[1,2]"), ("MaxLoadPerPhase", JSValue.num 3)]

/-- Worker with two available slots and `MaxLoadPerPhase = 2` (not flagged). -/
def overWorker2 : Row :=
  [("AvailableSlots", JSValue.str "[1,2]"), ("MaxLoadPerPhase", JSValue.num 2)]

/-- Worker with no available slots and `MaxLoadPerPhase = 0`. -/
def overWorker0 : Row :=
  [("AvailableSlots", JSValue.str "[]"), ("MaxLoadPerPhase", JSValue.num 0)]

/-- Worker whose `AvailableSlots` is invalid JSON (parse throws, caught). -/
def badSlotsWorker : Row :=
  [("AvailableSlots", JSValue.str "[1,2"), ("MaxLoadPerPhase", JSValue.num 3)]

/-- Statement helper for the task-reference theorems: the truthy IDs of a
row's parsed list whose trimmed form is not a known `TaskID`. -/
def unmatchedIds (tids : List (Option JSValue)) (l : List String) : List String :=
  l.filter (fun s => truthyJ (JsonVal.str s) && !(taskIdsHas tids (jsTrim s)))

/-- Statement helper: does the result carry any structured error entry? -/
def hasAnyErr (st : ValidationResult) : Prop :=
  st.errors.clients ≠ [] ∨ st.errors.workers ≠ [] ∨ st.errors.tasks ≠ []

/-- Statement helper: `st'` extends `st` by appending `apps` to `summary`,
and is `st` itself when nothing was appended. -/
def GrowsBy (st st' : ValidationResult) : Prop :=
  ∃ apps, st'.summary = st.summary ++ apps ∧ (apps = [] → st' = st)

/-- The engine state after the task-reference pass on a client requesting
the unknown IDs `X` and `Y` with no tasks present. -/
def c3Expected : ValidationResult :=
  { errors :=
      { clients := [("0", [("RequestedTaskIDs", "Unknown task ID: Y")])],
        workers := [], tasks := [] },
    summary := ["clients: Row 1 requests unknown task 'X'",
      "clients: Row 1 requests unknown task 'Y'"],
    suggestions := [] }

/-! # Claims -/

/-- C1 (counterexample): the claim says the two disjoint co-run rules
`(T1,T2)` and `(T3,T4)` append no cycle summary line and no suggestion,
but the checker reports a circular dependency involving `T1`: the clique
expansion stores both directions of each pair as directed edges, so the
depth-first search finds the back edge `T1 → T2 → T1`. -/
theorem C1_counterexample :
    checkCircularCoRuns disjointRules2 emptyResult =
      Except.ok
        { errors := { clients := [], workers := [], tasks := [] },
          summary := ["Circular co-run dependency detected involving task T1"],
          suggestions := ["Review co-run rules to eliminate circular dependencies"] } := by
  rfl

/-- C1 (amended): the three co-run rules `(T1,T2)`, `(T2,T3)`, `(T3,T1)`
make the cycle check append one circular-dependency summary line and one
suggestion; the two disjoint co-run rules `(T1,T2)` and `(T3,T4)` *also*
append the same summary line and suggestion, because the bidirectional
clique expansion turns every co-run pair into a two-task cycle. -/
theorem C1_amended_theorem :
    checkCircularCoRuns cycleRules3 emptyResult =
      Except.ok
        { errors := { clients := [], workers := [], tasks := [] },
          summary := ["Circular co-run dependency detected involving task T1"],
          suggestions := ["Review co-run rules to eliminate circular dependencies"] } ∧
    checkCircularCoRuns disjointRules2 emptyResult =
      Except.ok
        { errors := { clients := [], workers := [], tasks := [] },
          summary := ["Circular co-run dependency detected involving task T1"],
          suggestions := ["Review co-run rules to eliminate circular dependencies"] } := by
  exact ⟨rfl, rfl⟩

/-- C2 (counterexample): a task demanding phase 1 with duration 5 while no
worker offers any capacity is *not* reported: the task pass only updates
phases already seeded by the worker pass (`if (phaseSlots[phase])`), so
the phase-saturation check appends nothing at all. -/
theorem C2_counterexample :
    checkPhaseSlotSaturation [] [demandOnlyTask] emptyResult = emptyResult := by
  decide

/-- C3 (counterexample): for a client requesting the unknown IDs `X` and
`Y`, the summary gets one line per unmatched ID, but the structured field
error on `RequestedTaskIDs` holds only the message for `Y` — the last
write overwrites the message for `X` instead of accumulating. -/
theorem C3_counterexample :
    crossRefTaskIds [] [unknownTasksClient] emptyResult =
      Except.ok
        { errors :=
            { clients := [("0", [("RequestedTaskIDs", "Unknown task ID: Y")])],
              workers := [], tasks := [] },
          summary := ["clients: Row 1 requests unknown task 'X'",
            "clients: Row 1 requests unknown task 'Y'"],
          suggestions := [] } := by
  rfl

/-- C4: `validateAllData` is claimed never to throw when every row maps
field names to string or number values and every co-run rule carries a
task list, but on `throwArgs` — one worker whose `Skills` cell is the
string `"[1,2]"` — it throws: `JSON.parse` yields numbers and the skill
pool's `.map(skill => skill.trim())` runs outside every `try`. -/
theorem C4_throw_theorem : validateAllData throwArgs = Except.error () := by
  rfl

/-- C6: the engine is deterministic and idempotent — structurally equal
argument snapshots produce structurally equal results (same error maps,
same summary in the same order, same suggestions in the same order).  The
embedding reflects that the source consults no nondeterministic input:
JS object, `Map` and `Set` iteration follow specified insertion order,
which the association lists model. -/
theorem C6_theorem (a b : ValidateAllDataArgs) (h : a = b) :
    validateAllData a = validateAllData b := by
  rw [h]

/-- Witness for C6 at a concrete argument snapshot. -/
theorem C6_witness : validateAllData sampleArgs = validateAllData sampleArgs :=
  C6_theorem sampleArgs sampleArgs rfl

/-- Helper: the list/format step reads the row only through its reporting
key, the field value's truthiness, and the field value's parse result. -/
theorem malformedStep_value_congr (ent : Entity) (f : String) (numeric : Bool)
    (st : ValidationResult) (idx : Nat) (r1 r2 : Row)
    (hk : rowKey r1 idx = rowKey r2 idx)
    (ht : truthyO (Row.get r1 f) = truthyO (Row.get r2 f))
    (hp : parseStrList true (Row.get r1 f) = parseStrList true (Row.get r2 f)) :
    malformedStep ent f numeric st (idx, r1) = malformedStep ent f numeric st (idx, r2) := by
  simp only [malformedStep]
  rw [ht, hp, hk]

/-- C7: the comma-separated encoding `"a, b, c"` and the JSON encoding
`["a","b","c"]` of the same list normalize to the same three-element
string sequence, and the list/format checker step produces identical
output on two rows that differ only in which encoding the field uses. -/
theorem C7_theorem :
    parseStrList true (some (JSValue.str "a, b, c")) =
        Except.ok [JsonVal.str "a", JsonVal.str "b", JsonVal.str "c"] ∧
    parseStrList true (some (JSValue.str "[\"a\",\"b\",\"c\"]")) =
        Except.ok [JsonVal.str "a", JsonVal.str "b", JsonVal.str "c"] ∧
    ∀ (ent : Entity) (f : String) (numeric : Bool) (st : ValidationResult) (idx : Nat),
      f ≠ "id" →
      malformedStep ent f numeric st
          (idx, [("id", JSValue.str "R1"), (f, JSValue.str "a, b, c")]) =
        malformedStep ent f numeric st
          (idx, [("id", JSValue.str "R1"), (f, JSValue.str "[\"a\",\"b\",\"c\"]")]) := by
  refine ⟨rfl, rfl, ?_⟩
  intro ent f numeric st idx h
  have h' : ¬ ("id" = f) := fun hh => h hh.symm
  have hget1 : Row.get [("id", JSValue.str "R1"), (f, JSValue.str "a, b, c")] f =
      some (JSValue.str "a, b, c") := by
    simp [Row.get, alGet, h']
  have hget2 : Row.get [("id", JSValue.str "R1"), (f, JSValue.str "[\"a\",\"b\",\"c\"]")] f =
      some (JSValue.str "[\"a\",\"b\",\"c\"]") := by
    simp [Row.get, alGet, h']
  apply malformedStep_value_congr
  · rfl
  · rw [hget1, hget2]
    rfl
  · rw [hget1, hget2]
    rfl

/-- Witness for C7 at the `AvailableSlots` field of a worker row. -/
theorem C7_witness :
    malformedStep Entity.workers "AvailableSlots" true emptyResult
        (0, [("id", JSValue.str "R1"), ("AvailableSlots", JSValue.str "a, b, c")]) =
      malformedStep Entity.workers "AvailableSlots" true emptyResult
        (0, [("id", JSValue.str "R1"), ("AvailableSlots", JSValue.str "[\"a\",\"b\",\"c\"]")]) :=
  C7_theorem.2.2 Entity.workers "AvailableSlots" true emptyResult 0 (by decide)

/-- C8: the `[1, 5]` range check on `PriorityLevel` flags a present value
that coerces to 0 or 6 (field error plus summary line), leaves a value
coercing to 1 or 5 alone, and entirely skips a row whose value is
undefined, `null`, or the empty string. -/
theorem C8_theorem :
    (∀ (st : ValidationResult) (idx : Nat) (row : Row) (v : JSValue),
        Row.get row "PriorityLevel" = some v → v ≠ JSValue.null → v ≠ JSValue.str "" →
        (toNumber v = some 0 ∨ toNumber v = some 6) →
        rangeStep Entity.clients "PriorityLevel" 1 5 st (idx, row) =
          pushSummary (writeErr st Entity.clients (rowKey row idx) "PriorityLevel" (rangeMsg 1 5))
            (rangeLine Entity.clients idx "PriorityLevel" v 1 5)) ∧
    (∀ (st : ValidationResult) (idx : Nat) (row : Row) (v : JSValue),
        Row.get row "PriorityLevel" = some v →
        (toNumber v = some 1 ∨ toNumber v = some 5) →
        rangeStep Entity.clients "PriorityLevel" 1 5 st (idx, row) = st) ∧
    (∀ (st : ValidationResult) (idx : Nat) (row : Row),
        (Row.get row "PriorityLevel" = none ∨ Row.get row "PriorityLevel" = some JSValue.null ∨
          Row.get row "PriorityLevel" = some (JSValue.str "")) →
        rangeStep Entity.clients "PriorityLevel" 1 5 st (idx, row) = st) := by
  refine ⟨?_, ?_, ?_⟩
  · intro st idx row v hget hnull hemp hnum
    have hcond : ¬ (v = JSValue.null ∨ v = JSValue.str "") := by
      rintro (rfl | rfl)
      · exact hnull rfl
      · exact hemp rfl
    simp only [rangeStep, hget, if_neg hcond]
    rcases hnum with h | h <;> simp [h]
  · intro st idx row v hget hnum
    have hnull : v ≠ JSValue.null := by
      rintro rfl
      simp [toNumber] at hnum
    have hemp : v ≠ JSValue.str "" := by
      rintro rfl
      have : toNumberStr "" = some 0 := by decide
      simp [toNumber, this] at hnum
    have hcond : ¬ (v = JSValue.null ∨ v = JSValue.str "") := by
      rintro (rfl | rfl)
      · exact hnull rfl
      · exact hemp rfl
    simp only [rangeStep, hget, if_neg hcond]
    rcases hnum with h | h <;> simp [h]
  · intro st idx row hcase
    rcases hcase with hc | hc | hc <;> simp [rangeStep, hc]

/-- Witness for C8: `PriorityLevel` 0 is flagged, 5 passes, and the empty
string is skipped. -/
theorem C8_witness :
    rangeStep Entity.clients "PriorityLevel" 1 5 emptyResult
        (0, [("PriorityLevel", JSValue.num 0)]) =
      pushSummary
        (writeErr emptyResult Entity.clients (rowKey [("PriorityLevel", JSValue.num 0)] 0)
          "PriorityLevel" (rangeMsg 1 5))
        (rangeLine Entity.clients 0 "PriorityLevel" (JSValue.num 0) 1 5) ∧
    rangeStep Entity.clients "PriorityLevel" 1 5 emptyResult
        (0, [("PriorityLevel", JSValue.num 5)]) = emptyResult ∧
    rangeStep Entity.clients "PriorityLevel" 1 5 emptyResult
        (0, [("PriorityLevel", JSValue.str "")]) = emptyResult :=
  ⟨C8_theorem.1 emptyResult 0 [("PriorityLevel", JSValue.num 0)] (JSValue.num 0) rfl
      (by decide) (by decide) (Or.inl rfl),
    C8_theorem.2.1 emptyResult 0 [("PriorityLevel", JSValue.num 5)] (JSValue.num 5) rfl
      (Or.inr rfl),
    C8_theorem.2.2 emptyResult 0 [("PriorityLevel", JSValue.str "")]
      (Or.inr (Or.inr rfl))⟩

/-- C9 (counterexample): the claim says a worker is flagged exactly when
its parsed `AvailableSlots` list has fewer elements than its
`MaxLoadPerPhase`, defaulting only when absent — so a worker with an empty
slot list and `MaxLoadPerPhase = 0` should not be flagged (0 is not less
than 0).  The code defaults on any falsy value, so it compares 0 < 1 and
flags the worker. -/
theorem C9_counterexample :
    overloadStep emptyResult (0, overWorker0) =
      { errors :=
          { clients := [],
            workers := [("0", [("MaxLoadPerPhase", "Max load (0) exceeds available slots (0)")])],
            tasks := [] },
        summary := ["workers: Row 1 worker is overloaded"],
        suggestions := [] } := by
  decide

/-- C9 (amended): the worker-overload check flags a worker exactly when
its parsed `AvailableSlots` list has fewer elements than its
`MaxLoadPerPhase`, where absence *and any falsy value* (0 or the empty
string) default to 1; a worker whose `AvailableSlots` fails to parse is
silently skipped. -/
theorem C9_amended_theorem :
    (∀ (st : ValidationResult) (idx : Nat) (w : Row) (l : List SlotElem) (n : Int),
        parseNumList (Row.get w "AvailableSlots") = Except.ok l →
        Row.get w "MaxLoadPerPhase" = some (JSValue.num n) → n ≠ 0 →
        overloadStep st (idx, w) =
          if (l.length : Int) < n then overloadFlagged st idx w l.length else st) ∧
    (∀ (st : ValidationResult) (idx : Nat) (w : Row) (l : List SlotElem),
        parseNumList (Row.get w "AvailableSlots") = Except.ok l →
        (Row.get w "MaxLoadPerPhase" = none ∨
          Row.get w "MaxLoadPerPhase" = some (JSValue.num 0) ∨
          Row.get w "MaxLoadPerPhase" = some (JSValue.str "")) →
        overloadStep st (idx, w) =
          if l.length = 0 then overloadFlagged st idx w l.length else st) ∧
    (∀ (st : ValidationResult) (idx : Nat) (w : Row),
        parseNumList (Row.get w "AvailableSlots") = Except.error () →
        overloadStep st (idx, w) = st) := by
  refine ⟨?_, ?_, ?_⟩
  · intro st idx w l n hp hm hn
    simp only [overloadStep, hp, hm, jsOrOne, truthyV, jsLtLen, toNumber]
    simp [hn]
  · intro st idx w l hp hm
    have hlt : ((l.length : Int) < 1) ↔ l.length = 0 := by omega
    rcases hm with hm | hm | hm <;>
      simp only [overloadStep, hp, hm, jsOrOne, truthyV, jsLtLen, toNumber] <;>
      simp [hlt]
  · intro st idx w hp
    simp [overloadStep, hp]

/-- Witness for C9: slots `[1,2]` with `MaxLoadPerPhase` 3 is flagged,
with 2 it is not, and unparsable slots are skipped. -/
theorem C9_witness :
    overloadStep emptyResult (0, overWorker3) = overloadFlagged emptyResult 0 overWorker3 2 ∧
    overloadStep emptyResult (0, overWorker2) = emptyResult ∧
    overloadStep emptyResult (0, badSlotsWorker) = emptyResult := by
  refine ⟨?_, ?_, ?_⟩
  · have h := C9_amended_theorem.1 emptyResult 0 overWorker3
      [SlotElem.int 1, SlotElem.int 2] 3 rfl rfl (by decide)
    simpa using h
  · have h := C9_amended_theorem.1 emptyResult 0 overWorker2
      [SlotElem.int 1, SlotElem.int 2] 2 rfl rfl (by decide)
    simpa using h
  · exact C9_amended_theorem.2.2 emptyResult 0 badSlotsWorker rfl

/-- C10: the `|| 1` defaulting used by the worker-overload,
max-concurrency and phase-saturation checks applies whenever the stored
value is falsy — absent, the number 0, or the empty string; in
particular a worker with `MaxLoadPerPhase = 0` is treated as 1 and is
flagged overloaded exactly when its parsed slot list is empty, a task
with `MaxConcurrent = 0` is compared against 1 qualified worker, and the
phase counters treat a stored 0 like an absent value. -/
theorem C10_theorem :
    jsOrOne (some (JSValue.num 0)) = JSValue.num 1 ∧
    jsOrOne (some (JSValue.str "")) = JSValue.num 1 ∧
    jsOrOne none = JSValue.num 1 ∧
    (∀ (st : ValidationResult) (idx : Nat) (w : Row) (l : List SlotElem),
        parseNumList (Row.get w "AvailableSlots") = Except.ok l →
        Row.get w "MaxLoadPerPhase" = some (JSValue.num 0) →
        ((l = [] → overloadStep st (idx, w) = overloadFlagged st idx w 0) ∧
          (l ≠ [] → overloadStep st (idx, w) = st))) ∧
    (∀ (workers : List Row) (st : ValidationResult) (idx : Nat) (t : Row)
        (skills : List JsonVal),
        truthyO (Row.get t "RequiredSkills") = true →
        parseStrList true (Row.get t "RequiredSkills") = Except.ok skills →
        Row.get t "MaxConcurrent" = some (JSValue.num 0) →
        concStep workers st (idx, t) =
          if (workers.filter (workerQualifies skills)).length = 0 then
            concFlagged st idx t (workers.filter (workerQualifies skills)).length
          else st) ∧
    (∀ (m : List (String × PhaseSlot)) (e : SlotElem),
        workerPhaseStep (some (JSValue.num 0)) m e = workerPhaseStep none m e) ∧
    (∀ (m : List (String × PhaseSlot)) (e : SlotElem),
        taskPhaseStep (some (JSValue.num 0)) m e = taskPhaseStep none m e) := by
  refine ⟨rfl, rfl, rfl, ?_, ?_, ?_, ?_⟩
  · intro st idx w l hp hm
    constructor
    · rintro rfl
      simp [overloadStep, hp, hm, jsOrOne, truthyV, jsLtLen, toNumber]
    · intro hne
      have hlen : l.length ≠ 0 := fun hz => hne (List.eq_nil_of_length_eq_zero hz)
      simp only [overloadStep, hp, hm, jsOrOne, truthyV, jsLtLen, toNumber]
      have : ¬ ((l.length : Int) < 1) := by omega
      simp [this]
  · intro workers st idx t skills htr hp hm
    have hlt : (((workers.filter (workerQualifies skills)).length : Int) < 1) ↔
        (workers.filter (workerQualifies skills)).length = 0 := by omega
    simp only [concStep, htr, hp, hm, jsOrOne, truthyV, jsLtLen, toNumber]
    simp [hlt]
  · intro m e
    rfl
  · intro m e
    rfl

/-- Witness for C10 at a worker with zero `MaxLoadPerPhase` and an empty
slot list. -/
theorem C10_witness :
    overloadStep emptyResult (0, overWorker0) = overloadFlagged emptyResult 0 overWorker0 0 :=
  (C10_theorem.2.2.2.1 emptyResult 0 overWorker0 [] rfl rfl).1 rfl

/-- Helper: a successful association-list lookup is a member. -/
theorem alGet_mem {κ α : Type} [DecidableEq κ] :
    ∀ (m : List (κ × α)) (k : κ) (v : α), alGet m k = some v → (k, v) ∈ m := by
  intro m k v h
  induction m with
  | nil => simp [alGet] at h
  | cons hd tl ih =>
      obtain ⟨k', v'⟩ := hd
      simp only [alGet] at h
      by_cases hk : k' = k
      · rw [if_pos hk] at h
        injection h with h
        subst hk
        subst h
        exact List.mem_cons_self _ _
      · rw [if_neg hk] at h
        exact List.mem_cons_of_mem _ (ih h)

/-- Helper: membership is preserved by sorted insertion. -/
theorem mem_insertSortedKey (x y : String × PhaseSlot) (l : List (String × PhaseSlot)) :
    x ∈ insertSortedKey y l ↔ x = y ∨ x ∈ l := by
  induction l with
  | nil => simp [insertSortedKey]
  | cons z rest ih =>
      simp only [insertSortedKey]
      split
      · simp [or_comm, or_assoc, or_left_comm]
      · simp [ih]
        tauto

/-- Helper: membership is preserved by the index-key sort. -/
theorem mem_sortIndexKeys (x : String × PhaseSlot) :
    ∀ l : List (String × PhaseSlot), x ∈ l → x ∈ sortIndexKeys l := by
  intro l
  induction l with
  | nil => intro h; cases h
  | cons z rest ih =>
      intro h
      simp only [sortIndexKeys, mem_insertSortedKey]
      rcases List.mem_cons.mp h with h | h
      · exact Or.inl h
      · exact Or.inr (ih h)

/-- Helper: membership is preserved by the `Object.entries` ordering. -/
theorem mem_objectEntries (m : List (String × PhaseSlot)) (x : String × PhaseSlot)
    (h : x ∈ m) : x ∈ objectEntries m := by
  by_cases hidx : isArrayIndexKey x.1 = true
  · exact List.mem_append_left _
      (mem_sortIndexKeys x _ (List.mem_filter.mpr ⟨h, hidx⟩))
  · exact List.mem_append_right _ (List.mem_filter.mpr ⟨h, by simp [hidx]⟩)

/-- Helper: the reporting loop only appends to `summary`. -/
theorem reportPhases_summary_mono (es : List (String × PhaseSlot)) :
    ∀ (st : ValidationResult) (x : String), x ∈ st.summary → x ∈ (reportPhases st es).summary := by
  induction es with
  | nil => intro st x h; exact h
  | cons e rest ih =>
      intro st x h
      simp only [reportPhases, List.foldl_cons]
      apply ih
      split
      · simp only [pushSuggestion, pushSummary]
        exact List.mem_append_left _ h
      · exact h

/-- Helper: the reporting loop only appends to `suggestions`. -/
theorem reportPhases_suggestions_mono (es : List (String × PhaseSlot)) :
    ∀ (st : ValidationResult) (x : String),
      x ∈ st.suggestions → x ∈ (reportPhases st es).suggestions := by
  induction es with
  | nil => intro st x h; exact h
  | cons e rest ih =>
      intro st x h
      simp only [reportPhases, List.foldl_cons]
      apply ih
      split
      · simp only [pushSuggestion, pushSummary]
        exact List.mem_append_left _ h
      · exact h

/-- Helper: every enumerated oversaturated phase is reported with its
summary line and suggestion. -/
theorem reportPhases_reports (es : List (String × PhaseSlot)) :
    ∀ (st : ValidationResult) (k : String) (c : PhaseSlot),
      (k, c) ∈ es → ctrGt c.used c.total = true →
      oversatLine k c ∈ (reportPhases st es).summary ∧
      oversatSuggestion k ∈ (reportPhases st es).suggestions := by
  induction es with
  | nil => intro st k c h; cases h
  | cons e rest ih =>
      intro st k c hmem hgt
      simp only [reportPhases, List.foldl_cons]
      rcases List.mem_cons.mp hmem with heq | hmem'
      · subst heq
        rw [if_pos hgt]
        constructor
        · exact reportPhases_summary_mono rest _ _
            (by simp only [pushSuggestion, pushSummary]
                exact List.mem_append_right _ (List.mem_singleton.mpr rfl))
        · exact reportPhases_suggestions_mono rest _ _
            (by simp only [pushSuggestion, pushSummary]
                exact List.mem_append_right _ (List.mem_singleton.mpr rfl))
      · exact ih _ k c hmem' hgt

/-- C2 (amended): a task's `Duration` (default 1) is added to the `used`
counter only of phases that already have a capacity entry from the worker
pass — a phase appearing only in task demand is silently dropped — and
after aggregation every tracked phase whose `used` exceeds its `total` is
reported with one summary line naming the phase and both counts plus one
remediation suggestion. -/
theorem C2_amended_theorem :
    (∀ (workers tasks : List Row) (st : ValidationResult) (k : String) (slot : PhaseSlot),
        alGet (buildPhaseSlots workers tasks) k = some slot →
        ctrGt slot.used slot.total = true →
        oversatLine k slot ∈ (checkPhaseSlotSaturation workers tasks st).summary ∧
        oversatSuggestion k ∈ (checkPhaseSlotSaturation workers tasks st).suggestions) ∧
    (∀ (dur : Option JSValue) (m : List (String × PhaseSlot)) (e : SlotElem),
        alGet m (elemKey e) = none → taskPhaseStep dur m e = m) := by
  constructor
  · intro workers tasks st k slot hget hgt
    exact reportPhases_reports _ st k slot
      (mem_objectEntries _ _ (alGet_mem _ _ _ hget)) hgt
  · intro dur m e h
    simp [taskPhaseStep, h]

/-- Witness for C2 at the spec's example: capacity 5 and demand 7 at
phase 1 produce the oversaturation line and suggestion. -/
theorem C2_witness :
    oversatLine "1" { total := CtrVal.num 5, used := CtrVal.num 7 } ∈
      (checkPhaseSlotSaturation [satWorker] [satTask] emptyResult).summary ∧
    oversatSuggestion "1" ∈
      (checkPhaseSlotSaturation [satWorker] [satTask] emptyResult).suggestions :=
  C2_amended_theorem.1 [satWorker] [satTask] emptyResult "1"
    { total := CtrVal.num 5, used := CtrVal.num 7 } rfl rfl

/-- Helper: reading back the entity map that was just stored. -/
theorem getEnt_setEnt (e : ErrorsMap) (ent : Entity) (m : EntityErrs) :
    (e.setEnt ent m).getEnt ent = m := by
  cases ent <;> rfl

/-- Helper: looking up the key that was just set. -/
theorem alGet_alSet_self {κ α : Type} [DecidableEq κ] :
    ∀ (m : List (κ × α)) (k : κ) (v : α), alGet (alSet m k v) k = some v := by
  intro m k v
  induction m with
  | nil => simp [alSet, alGet]
  | cons hd tl ih =>
      obtain ⟨k', v'⟩ := hd
      simp only [alSet]
      by_cases hk : k' = k
      · rw [if_pos hk]
        simp [alGet]
      · rw [if_neg hk]
        simp only [alGet, if_neg hk]
        exact ih

/-- Helper: a field error just written is read back. -/
theorem getFieldErr_writeErr (st : ValidationResult) (ent : Entity) (key field msg : String) :
    getFieldErr (writeErr st ent key field msg).errors ent key field = some msg := by
  simp [getFieldErr, writeErr, getEnt_setEnt, setFieldErr, alGet_alSet_self]

/-- Helper: how the unmatched-ID list unfolds on a cons. -/
theorem unmatchedIds_cons (tids : List (Option JSValue)) (a : String) (tl : List String) :
    unmatchedIds tids (a :: tl) =
      if (truthyJ (JsonVal.str a) && !(taskIdsHas tids (jsTrim a))) = true then
        a :: unmatchedIds tids tl
      else unmatchedIds tids tl := by
  simp [unmatchedIds, List.filter_cons]

/-- C3 (amended): over a parsed all-string `RequestedTaskIDs` list, the
task-reference pass appends one summary line per truthy unmatched ID, in
list order, touches no suggestions, and stores in the row's
`RequestedTaskIDs` field error the message of the *last* unmatched ID
(each write overwrites the previous one rather than accumulating). -/
theorem C3_amended_theorem :
    ∀ (tids : List (Option JSValue)) (key : String) (idx : Nat) (l : List String)
      (st st' : ValidationResult),
      foldlE (clientRefItem tids key idx) (l.map JsonVal.str) st = Except.ok st' →
      (st'.summary = st.summary ++ (unmatchedIds tids l).map (refLine idx) ∧
       st'.suggestions = st.suggestions ∧
       (unmatchedIds tids l = [] → st' = st) ∧
       (∀ m, (unmatchedIds tids l).getLast? = some m →
          getFieldErr st'.errors Entity.clients key "RequestedTaskIDs" = some (refMsg m))) := by
  intro tids key idx l
  induction l with
  | nil =>
      intro st st' h
      simp only [List.map_nil, foldlE] at h
      injection h with h
      subst h
      refine ⟨by simp [unmatchedIds], rfl, fun _ => rfl, ?_⟩
      intro m hm
      simp [unmatchedIds] at hm
  | cons a tl ih =>
      intro st st' h
      simp only [List.map_cons, foldlE] at h
      by_cases ha : truthyJ (JsonVal.str a) = true
      · by_cases hh : taskIdsHas tids (jsTrim a) = true
        · -- matched: no write for `a`
          have hun : unmatchedIds tids (a :: tl) = unmatchedIds tids tl := by
            simp [unmatchedIds_cons, ha, hh]
          rw [show clientRefItem tids key idx st (JsonVal.str a) = Except.ok st by
            simp [clientRefItem, ha, hh]] at h
          rw [hun]
          exact ih st st' h
        · -- unmatched: write field error and summary line for `a`
          have hfx : taskIdsHas tids (jsTrim a) = false := by
            simpa using hh
          have hun : unmatchedIds tids (a :: tl) = a :: unmatchedIds tids tl := by
            simp [unmatchedIds_cons, ha, hfx]
          rw [show clientRefItem tids key idx st (JsonVal.str a) =
              Except.ok (pushSummary
                (writeErr st Entity.clients key "RequestedTaskIDs" (refMsg a))
                (refLine idx a)) by
            simp [clientRefItem, ha, hh]] at h
          have ihs := ih _ st' h
          rw [hun]
          have hsum : st'.summary =
              st.summary ++ (a :: unmatchedIds tids tl).map (refLine idx) := by
            rw [ihs.1]
            simp [pushSummary, writeErr]
          have hsugg : st'.suggestions = st.suggestions := by
            rw [ihs.2.1]
            rfl
          refine ⟨hsum, hsugg, by simp, ?_⟩
          intro m hm
          cases hu : unmatchedIds tids tl with
          | nil =>
              rw [hu] at hm
              simp at hm
              subst hm
              have hst : st' = pushSummary
                  (writeErr st Entity.clients key "RequestedTaskIDs" (refMsg a))
                  (refLine idx a) := ihs.2.2.1 hu
              rw [hst]
              exact getFieldErr_writeErr st Entity.clients key "RequestedTaskIDs" (refMsg a)
          | cons b u =>
              rw [hu] at hm
              rw [List.getLast?_cons_cons] at hm
              have hlast := ihs.2.2.2 m
              rw [hu] at hlast
              exact hlast hm
      · -- falsy element: skipped entirely
        have haf : truthyJ (JsonVal.str a) = false := by
          simpa using ha
        have hun : unmatchedIds tids (a :: tl) = unmatchedIds tids tl := by
          simp [unmatchedIds_cons, haf]
        rw [show clientRefItem tids key idx st (JsonVal.str a) = Except.ok st by
          simp [clientRefItem, haf]] at h
        rw [hun]
        exact ih st st' h

/-- Witness for C3: with no known tasks, the client list `X,Y` yields two
summary lines and a field error holding only the message for `Y`. -/
theorem C3_witness :
    getFieldErr c3Expected.errors Entity.clients "0" "RequestedTaskIDs" =
        some (refMsg "Y") ∧
    c3Expected.summary =
        emptyResult.summary ++ (unmatchedIds [] ["X", "Y"]).map (refLine 0) :=
  ⟨(C3_amended_theorem [] "0" 0 ["X", "Y"] emptyResult c3Expected rfl).2.2.2 "Y" rfl,
    (C3_amended_theorem [] "0" 0 ["X", "Y"] emptyResult c3Expected rfl).1⟩

/-- Helper: `GrowsBy` is reflexive. -/
theorem growsBy_refl (st : ValidationResult) : GrowsBy st st :=
  ⟨[], by simp, fun _ => rfl⟩

/-- Helper: `GrowsBy` composes. -/
theorem growsBy_trans {a b c : ValidationResult} (h1 : GrowsBy a b) (h2 : GrowsBy b c) :
    GrowsBy a c := by
  obtain ⟨l1, hs1, he1⟩ := h1
  obtain ⟨l2, hs2, he2⟩ := h2
  refine ⟨l1 ++ l2, by rw [hs2, hs1, List.append_assoc], ?_⟩
  intro hz
  obtain ⟨z1, z2⟩ := List.append_eq_nil.mp hz
  rw [he2 z2, he1 z1]

/-- Helper: a state that appended exactly one summary line grew. -/
theorem growsBy_of_push (st x : ValidationResult) (line : String)
    (h : x.summary = st.summary ++ [line]) : GrowsBy st x :=
  ⟨[line], h, by simp⟩

/-- Helper: a fold of growing steps grows. -/
theorem growsBy_foldl {α : Type} (f : ValidationResult → α → ValidationResult)
    (hf : ∀ st a, GrowsBy st (f st a)) :
    ∀ (l : List α) (st : ValidationResult), GrowsBy st (List.foldl f st l) := by
  intro l
  induction l with
  | nil => intro st; exact growsBy_refl st
  | cons a tl ih => intro st; exact growsBy_trans (hf st a) (ih (f st a))

/-- Helper: an exception-threading fold of growing steps grows. -/
theorem growsBy_foldlE {α : Type}
    (f : ValidationResult → α → Except Unit ValidationResult)
    (hf : ∀ st a st', f st a = Except.ok st' → GrowsBy st st') :
    ∀ (l : List α) (st st' : ValidationResult),
      foldlE f l st = Except.ok st' → GrowsBy st st' := by
  intro l
  induction l with
  | nil =>
      intro st st' h
      simp only [foldlE] at h
      injection h with h
      subst h
      exact growsBy_refl st
  | cons a tl ih =>
      intro st st' h
      simp only [foldlE] at h
      cases hfa : f st a with
      | error e => rw [hfa] at h; simp at h
      | ok st1 =>
          rw [hfa] at h
          exact growsBy_trans (hf st a st1 hfa) (ih st1 st' h)

/-- Helper: a fold whose step never touches `summary` never touches it. -/
theorem foldl_summary_eq {α : Type} (f : ValidationResult → α → ValidationResult)
    (hf : ∀ st a, (f st a).summary = st.summary) :
    ∀ (l : List α) (st : ValidationResult), (List.foldl f st l).summary = st.summary := by
  intro l
  induction l with
  | nil => intro st; rfl
  | cons a tl ih => intro st; rw [List.foldl_cons, ih, hf]

/-- Helper: the schema check grows the state. -/
theorem growsBy_checkMissingColumns (ent : Entity) (rows : List Row) :
    ∀ st, GrowsBy st (checkMissingColumns ent rows st) := by
  intro st
  cases rows with
  | nil => exact growsBy_refl st
  | cons first rest =>
      simp only [checkMissingColumns]
      split
      · exact growsBy_refl st
      · apply growsBy_of_push
        rw [foldl_summary_eq]
        · rfl
        · intro st' p
          rw [foldl_summary_eq]
          intro st'' col
          rfl

/-- Helper: the duplicate-identity check grows the state. -/
theorem growsBy_checkDuplicateIds (ent : Entity) (rows : List Row) (idField : String) :
    ∀ st, GrowsBy st (checkDuplicateIds ent rows idField st) := by
  intro st
  unfold checkDuplicateIds
  apply growsBy_foldl
  intro st' g
  split
  · apply growsBy_of_push
    rw [foldl_summary_eq]
    · rfl
    · intro st'' p
      rfl
  · exact growsBy_refl st'

/-- Helper: the list/format step grows the state. -/
theorem growsBy_malformedStep (ent : Entity) (f : String) (numeric : Bool) :
    ∀ st p, GrowsBy st (malformedStep ent f numeric st p) := by
  intro st p
  simp only [malformedStep]
  split
  · exact growsBy_refl st
  · split
    · exact growsBy_of_push _ _ _ rfl
    · split
      · split
        · exact growsBy_of_push _ _ _ rfl
        · exact growsBy_refl st
      · exact growsBy_refl st

/-- Helper: the range step grows the state. -/
theorem growsBy_rangeStep (ent : Entity) (f : String) (mn mx : Int) :
    ∀ st p, GrowsBy st (rangeStep ent f mn mx st p) := by
  intro st p
  simp only [rangeStep]
  split
  · exact growsBy_refl st
  · split
    · exact growsBy_refl st
    · split
      · exact growsBy_of_push _ _ _ rfl
      · exact growsBy_refl st

/-- Helper: the JSON-format step grows the state. -/
theorem growsBy_jsonFormatStep (ent : Entity) (f : String) :
    ∀ st p, GrowsBy st (jsonFormatStep ent f st p) := by
  intro st p
  simp only [jsonFormatStep]
  split
  · exact growsBy_refl st
  · split
    · exact growsBy_refl st
    · split
      · exact growsBy_refl st
      · exact growsBy_of_push _ _ _ rfl

/-- Helper: the worker-overload step grows the state. -/
theorem growsBy_overloadStep : ∀ st p, GrowsBy st (overloadStep st p) := by
  intro st p
  simp only [overloadStep]
  split
  · exact growsBy_refl st
  · split
    · exact growsBy_of_push _ _ _ rfl
    · exact growsBy_refl st

/-- Helper: the concurrency-feasibility step grows the state. -/
theorem growsBy_concStep (workers : List Row) : ∀ st p, GrowsBy st (concStep workers st p) := by
  intro st p
  simp only [concStep]
  split
  · exact growsBy_refl st
  · split
    · exact growsBy_refl st
    · split
      · exact growsBy_of_push _ _ _ rfl
      · exact growsBy_refl st

/-- Helper: the whole per-entity prefix grows the state. -/
theorem growsBy_totalChecks (a : ValidateAllDataArgs) :
    ∀ st, GrowsBy st (totalChecks a st) := by
  intro st
  unfold totalChecks
  apply growsBy_trans (growsBy_checkMissingColumns _ _ _)
  apply growsBy_trans (growsBy_checkDuplicateIds _ _ _ _)
  apply growsBy_trans (growsBy_foldl _ (growsBy_rangeStep _ _ _ _) _ _)
  apply growsBy_trans (growsBy_foldl _ (growsBy_malformedStep _ _ _) _ _)
  apply growsBy_trans (growsBy_foldl _ (growsBy_jsonFormatStep _ _) _ _)
  apply growsBy_trans (growsBy_checkMissingColumns _ _ _)
  apply growsBy_trans (growsBy_checkDuplicateIds _ _ _ _)
  apply growsBy_trans (growsBy_foldl _ (growsBy_malformedStep _ _ _) _ _)
  apply growsBy_trans (growsBy_foldl _ (growsBy_malformedStep _ _ _) _ _)
  apply growsBy_trans (growsBy_foldl _ (growsBy_rangeStep _ _ _ _) _ _)
  apply growsBy_trans (growsBy_foldl _ growsBy_overloadStep _ _)
  apply growsBy_trans (growsBy_checkMissingColumns _ _ _)
  apply growsBy_trans (growsBy_checkDuplicateIds _ _ _ _)
  apply growsBy_trans (growsBy_foldl _ (growsBy_malformedStep _ _ _) _ _)
  apply growsBy_trans (growsBy_foldl _ (growsBy_malformedStep _ _ _) _ _)
  apply growsBy_trans (growsBy_foldl _ (growsBy_rangeStep _ _ _ _) _ _)
  apply growsBy_trans (growsBy_foldl _ (growsBy_rangeStep _ _ _ _) _ _)
  exact growsBy_foldl _ (growsBy_concStep _) _ _

/-- Helper: one task-reference item grows the state when it returns. -/
theorem growsBy_clientRefItem (tids : List (Option JSValue)) (key : String) (idx : Nat) :
    ∀ st t st', clientRefItem tids key idx st t = Except.ok st' → GrowsBy st st' := by
  intro st t st' h
  simp only [clientRefItem] at h
  split at h
  · split at h
    · simp at h
    · split at h
      · injection h with h
        subst h
        exact growsBy_of_push _ _ _ rfl
      · injection h with h
        subst h
        exact growsBy_refl st
  · injection h with h
    subst h
    exact growsBy_refl st

/-- Helper: one client's task-reference pass grows the state. -/
theorem growsBy_clientRefRow (tids : List (Option JSValue)) :
    ∀ st p st', clientRefRow tids st p = Except.ok st' → GrowsBy st st' := by
  intro st p st' h
  simp only [clientRefRow] at h
  split at h
  · exact growsBy_foldlE _ (growsBy_clientRefItem tids _ _) _ st st' h
  · injection h with h
    subst h
    exact growsBy_refl st

/-- Helper: one skill-coverage item grows the state when it returns. -/
theorem growsBy_covItem (allSkills : List String) (key : String) (idx : Nat) :
    ∀ st s st', covItem allSkills key idx st s = Except.ok st' → GrowsBy st st' := by
  intro st s st' h
  simp only [covItem] at h
  split at h
  · split at h
    · simp at h
    · split at h
      · injection h with h
        subst h
        exact growsBy_of_push _ _ _ rfl
      · injection h with h
        subst h
        exact growsBy_refl st
  · injection h with h
    subst h
    exact growsBy_refl st

/-- Helper: one task's skill-coverage pass grows the state. -/
theorem growsBy_covRow (allSkills : List String) :
    ∀ st p st', covRow allSkills st p = Except.ok st' → GrowsBy st st' := by
  intro st p st' h
  simp only [covRow] at h
  split at h
  · exact growsBy_foldlE _ (growsBy_covItem allSkills _ _) _ st st' h
  · injection h with h
    subst h
    exact growsBy_refl st

/-- Helper: the cycle check grows the state when it returns. -/
theorem growsBy_checkCircularCoRuns (rules : List Rule) :
    ∀ st st', checkCircularCoRuns rules st = Except.ok st' → GrowsBy st st' := by
  intro st st' h
  simp only [checkCircularCoRuns] at h
  split at h
  · simp at h
  · split at h
    · injection h with h
      subst h
      exact growsBy_of_push _ _ _ rfl
    · injection h with h
      subst h
      exact growsBy_refl st

/-- Helper: the phase-saturation check grows the state. -/
theorem growsBy_checkPhaseSlotSaturation (workers tasks : List Row) :
    ∀ st, GrowsBy st (checkPhaseSlotSaturation workers tasks st) := by
  intro st
  unfold checkPhaseSlotSaturation reportPhases
  apply growsBy_foldl
  intro st' e
  split
  · exact growsBy_of_push _ _ _ rfl
  · exact growsBy_refl st'

/-- Helper: a successful engine run grows from the empty state. -/
theorem growsBy_validateAllData (a : ValidateAllDataArgs) (r : ValidationResult)
    (h : validateAllData a = Except.ok r) : GrowsBy emptyResult r := by
  unfold validateAllData at h
  cases hcr : crossRefTaskIds (taskIdsOf a.tasks) a.clients (totalChecks a emptyResult) with
  | error e => rw [hcr] at h; simp at h
  | ok st1 =>
      rw [hcr] at h
      dsimp only at h
      cases hsk : buildAllWorkerSkills a.workers with
      | error e => rw [hsk] at h; simp at h
      | ok allSkills =>
          rw [hsk] at h
          dsimp only at h
          cases hcov : skillCoverage allSkills a.tasks st1 with
          | error e => rw [hcov] at h; simp at h
          | ok st2 =>
              rw [hcov] at h
              dsimp only at h
              cases hcc : checkCircularCoRuns a.rules st2 with
              | error e => rw [hcc] at h; simp at h
              | ok st3 =>
                  rw [hcc] at h
                  dsimp only at h
                  injection h with h
                  subst h
                  refine growsBy_trans (growsBy_totalChecks a emptyResult) ?_
                  refine growsBy_trans
                    (growsBy_foldlE _ (growsBy_clientRefRow _) _ _ _ hcr) ?_
                  refine growsBy_trans
                    (growsBy_foldlE _ (growsBy_covRow _) _ _ _ hcov) ?_
                  exact growsBy_trans (growsBy_checkCircularCoRuns _ _ _ hcc)
                    (growsBy_checkPhaseSlotSaturation _ _ _)

/-- C5: whenever a successful engine run reports a structured field error
`errors[entity][rowId][field]`, at least one message was appended to
`summary` in the same run: every error-writing branch in every checker
also pushes a summary line, and `summary` only ever grows. -/
theorem C5_theorem :
    ∀ (a : ValidateAllDataArgs) (r : ValidationResult) (ent : Entity) (key field msg : String),
      validateAllData a = Except.ok r →
      getFieldErr r.errors ent key field = some msg →
      r.summary ≠ [] := by
  intro a r ent key field msg hval hf
  have herr : hasAnyErr r := by
    have hne : r.errors.getEnt ent ≠ [] := by
      intro hz
      unfold getFieldErr at hf
      rw [hz] at hf
      simp [alGet] at hf
    cases ent
    · exact Or.inl hne
    · exact Or.inr (Or.inl hne)
    · exact Or.inr (Or.inr hne)
  obtain ⟨apps, hsum, happ⟩ := growsBy_validateAllData a r hval
  intro hz
  have happs : apps = [] := by
    rw [hz] at hsum
    simpa [emptyResult] using hsum.symm
  rw [happ happs] at herr
  rcases herr with h | h | h <;> exact h rfl

/-- Witness for C5: a client with `PriorityLevel = 0` produces a field
error, and the run's summary is nonempty. -/
theorem C5_witness : sampleRun.summary ≠ [] :=
  C5_theorem sampleArgs sampleRun Entity.clients "0" "PriorityLevel"
    "Value must be between 1 and 5" rfl (by decide)
